import Mathlib

/-!
Shallow embedding of the HTTP routing layer of the gamma_endpoint
repository: sources/internal/endpoint/routers.py and
sources/frontend/endpoint/routers.py.

Modelling conventions: Python strings are lists of characters; wall-clock
readings (datetime.now) are injected as explicit integer parameters;
awaited collaborator calls are values of type Except; an HTTPException is
an explicit constructor carrying the status code and detail message;
uncaught Python exceptions (ValueError, TypeError, KeyError, NameError)
are explicit error constructors as well.
-/

deriving instance DecidableEq for Except

namespace GammaSpec

/-- Python str.split with separator "-": splits on every occurrence of the
dash, keeping empty segments, and yielding one empty segment for the empty
string. -/
def splitDash : List Char → List (List Char)
  | [] => [[]]
  | c :: cs =>
    if c = '-' then [] :: splitDash cs
    else
      match splitDash cs with
      | [] => [[c]]
      | p :: ps => (c :: p) :: ps

/-- Value of a decimal digit character, none for any other character. -/
def digitToNat (c : Char) : Option Nat :=
  if 48 ≤ c.toNat ∧ c.toNat ≤ 57 then some (c.toNat - 48) else none

/-- Accumulating value of an all-digit string, none when a non-digit
appears. -/
def digitsValAux (acc : Nat) : List Char → Option Nat
  | [] => some acc
  | c :: cs =>
    match digitToNat c with
    | some d => digitsValAux (acc * 10 + d) cs
    | none => none

/-- Value of a nonempty all-digit string, none otherwise. -/
def digitsVal (s : List Char) : Option Nat :=
  match s with
  | [] => none
  | _ => digitsValAux 0 s

/-- Characters the CPython int() parser strips from both ends of an ASCII
argument: the code points 9-13 and 32. Non-ASCII Unicode whitespace,
which CPython first maps to a plain space, is outside the modelled
region. -/
def isPySpace (c : Char) : Bool :=
  decide ((9 ≤ c.toNat ∧ c.toNat ≤ 13) ∨ c.toNat = 32)

/-- Python str.strip of the surrounding whitespace, as int() performs it. -/
def stripWs (s : List Char) : List Char :=
  ((s.dropWhile isPySpace).reverse.dropWhile isPySpace).reverse

/-- Digit-and-underscore scanner of the int() parser. The prevDigit flag
records whether the previous character was a digit: an underscore is legal
only right after a digit and must be followed by a digit, and the scan
must end on a digit. -/
def pyDigits (prevDigit : Bool) (acc : Nat) : List Char → Option Nat
  | [] => if prevDigit then some acc else none
  | c :: cs =>
    if c = '_' then
      if prevDigit then pyDigits false acc cs else none
    else
      match digitToNat c with
      | some d => pyDigits true (acc * 10 + d) cs
      | none => none

/-- Digit part of the int() parser: at least one digit, with single
underscore separators allowed between digits. -/
def pyIntCore (s : List Char) : Option Nat :=
  pyDigits false 0 s

/-- Sign handling of the int() parser: one optional plus or minus sign
directly followed by the digit part. -/
def pyIntSigned : List Char → Option Int
  | [] => none
  | c :: cs =>
    if c = '-' then (pyIntCore cs).map (fun n => -(n : Int))
    else if c = '+' then (pyIntCore cs).map (fun n => (n : Int))
    else (pyIntCore (c :: cs)).map (fun n => (n : Int))

/-- Python int(str) on a base-10 literal: surrounding whitespace is
stripped, then an optional single sign, then at least one digit with
single underscore separators allowed between digits. On ASCII strings
this agrees exactly with CPython (so int("1_0") is 10 and int(" 5") is
5); CPython additionally accepts non-ASCII Unicode decimal digits and
whitespace, which are outside the modelled region, so every theorem that
concludes a ValueError from a none result restricts its input to ASCII
characters. A none result models the ValueError that int() raises. -/
def pyInt (s : List Char) : Option Int :=
  pyIntSigned (stripWs s)

/-- Result of resolving a string week_start_timestamp
(sources/internal/endpoint/routers.py lines 285-314): a concrete start
timestamp, an HTTPException with status 400, or an uncaught ValueError
raised by int() on a non-numeric token. -/
inductive StrResolve
  | ok (t : Int)
  | httpError400 (detail : List Char)
  | valueError
deriving DecidableEq

/-- Detail message of the 400 error raised at line 313; the f-string there
has no placeholder, so the message is this fixed text. -/
def invalid_week_detail : List Char := "Invalid week start timestamp.".data

/-- One week, in seconds (line 283). -/
def week_in_seconds : Int := 604800

/-- Lines 285-314 of the internal routers file: resolution of a string
week_start_timestamp. The midnight parameter is the epoch timestamp of
00:00 UTC of the current day, datetime(now.year, now.month, now.day,
tzinfo=utc).timestamp(). The guard of the second branch is
startswith("last") together with a two-element split on the dash, after
which the second split component is fed to int(). -/
def resolveWeekStartStr (s : List Char) (midnight : Int) : StrResolve :=
  if s = "last".data then .ok (midnight - week_in_seconds)
  else if "last".data.isPrefixOf s then
    match splitDash s with
    | [_, b] =>
      match pyInt b with
      | some n => .ok (midnight - week_in_seconds * (n + 1))
      | none => .valueError
    | _ => .httpError400 invalid_week_detail
  else .httpError400 invalid_week_detail

/-- Line 317 of the internal routers file: start_timestamp =
week_start_timestamp or int(now). Python or-chaining treats the number 0
as falsy, in which case the current timestamp is used instead. -/
def start_timestamp_of (wst now : Int) : Int :=
  if wst = 0 then now else wst

/-- Lines 322-333 of the internal routers file: the number of whole weeks
in the period (Python floor division) and the list of
(week index, week start, week end) triples. A negative or zero week count
yields the empty list, as range() does. -/
def week_timestamps (startT endT : Int) : List (Int × Int × Int) :=
  (List.range ((endT - startT).fdiv week_in_seconds).toNat).map (fun (w : Nat) =>
    ((w : Int), startT + week_in_seconds * (w : Int),
      startT + week_in_seconds * ((w : Int) + 1) - 1))

/-- asyncio.gather without return_exceptions (line 347): when every
coroutine succeeds the results are returned in request order; when any
raises, the exception propagates to the awaiting caller and no list is
returned. The propagated exception is modelled as the first error in
request order. -/
def gatherStrict : List (Except ε α) → Except ε (List α)
  | [] => .ok []
  | x :: xs =>
    match x with
    | .error e => .error e
    | .ok a => (gatherStrict xs).map (fun l => a :: l)

/-- Observable outcome of one call to the weekly fees endpoint: a JSON
array, an HTTPException (status code and detail), an uncaught ValueError
from int(), or an exception propagated out of asyncio.gather. -/
inductive EndpointResult (ε α : Type)
  | ok (a : α)
  | httpError (code : Nat) (detail : List Char)
  | valueError
  | raised (e : ε)
deriving DecidableEq

/-- The week_start_timestamp query parameter has type int or str. -/
inductive WeekStartParam
  | int (n : Int)
  | str (s : List Char)

/-- Lines 336-347 of the internal routers file, given an already resolved
start timestamp: one get_chain_usd_fees request per sub-window, with
weeknum equal to the zero-based week index plus one, gathered without
return_exceptions. -/
def weekly_core (startT now : Int) (fees : Int → Int → Int → Except ε α) :
    EndpointResult ε (List α) :=
  match gatherStrict ((week_timestamps startT now).map
      (fun t => fees (t.1 + 1) t.2.1 t.2.2)) with
  | .ok results => .ok results
  | .error e => .raised e

/-- Lines 266-347 of the internal routers file: weekly_chain_usd_fees.
The chain and protocol parameters are only forwarded to the fees
collaborator, folded here into the fees function; the body performs no
DEPLOYMENTS membership check. midnight and now are the wall-clock
readings; fees weeknum start end is the per-sub-window
get_chain_usd_fees call. -/
def weekly_chain_usd_fees (param : WeekStartParam) (midnight now : Int)
    (fees : Int → Int → Int → Except ε α) : EndpointResult ε (List α) :=
  match (match param with
    | .int n => StrResolve.ok n
    | .str s => resolveWeekStartStr s midnight) with
  | .httpError400 d => .httpError 400 d
  | .valueError => .valueError
  | .ok wst => weekly_core (start_timestamp_of wst now) now fees

/-- Fields of one per-address entry of the dictionaries returned by
fee_returns_all, as read by the fee_returns route (lines 112-131): symbol,
status, feeApr and feeApy. The numeric payload type is abstract because
the route only copies these values. -/
structure HypeData (V : Type) where
  symbol : List Char
  status : List Char
  feeApr : V
  feeApy : V
deriving DecidableEq

/-- Shape of one fee_returns_all result: the lp and total dictionaries,
keyed by hypervisor address. -/
structure FeeReturnsAllResult (V : Type) where
  lp : List (List Char × HypeData V)
  total : List (List Char × HypeData V)
deriving DecidableEq

/-- Output value for one period of one address (lines 125-131). -/
structure InternalFeeYield (V : Type) where
  totalApr : V
  totalApy : V
  lpApr : V
  lpApy : V
  status : List Char
deriving DecidableEq

/-- Output entry for one address (lines 112-132): symbol plus one optional
yield per period, set only for periods whose gathered result was not an
Exception. -/
structure InternalFeeReturnsOutput (V : Type) where
  symbol : List Char
  daily : Option (InternalFeeYield V)
  weekly : Option (InternalFeeYield V)
  monthly : Option (InternalFeeYield V)
deriving DecidableEq

/-- Lines 102-110 of the internal routers file: the valid_results
selection. When all three gathered results are Exceptions, the expression
subscripts an Exception object with "lp", raising an uncaught TypeError,
modelled as an error. -/
def valid_results (d w m : Except ε (FeeReturnsAllResult V)) :
    Except Unit (List (List Char × HypeData V)) :=
  match d with
  | .ok dr => .ok dr.lp
  | .error _ =>
    match w with
    | .ok wr => .ok wr.lp
    | .error _ =>
      match m with
      | .ok mr => .ok mr.lp
      | .error _ => .error ()

/-- Lines 120-131: the data copied for one period and one address. An
address missing from either dictionary raises a Python KeyError, modelled
as an error. -/
def periodYield (res : FeeReturnsAllResult V) (addr : List Char) :
    Except Unit (InternalFeeYield V) :=
  match List.lookup addr res.total, List.lookup addr res.lp with
  | some t, some l =>
    .ok { totalApr := t.feeApr, totalApy := t.feeApy,
          lpApr := l.feeApr, lpApy := l.feeApy,
          status := "Total:".data ++ t.status ++ ", LP: ".data ++ l.status }
  | _, _ => .error ()

/-- One iteration of the period loop (lines 117-132): an Exception period
is skipped with continue; otherwise the period attribute is set, with
lookup failures propagating as KeyError. -/
def applyPeriod (pr : Except ε (FeeReturnsAllResult V)) (addr : List Char)
    (setF : InternalFeeYield V → InternalFeeReturnsOutput V → InternalFeeReturnsOutput V)
    (o : InternalFeeReturnsOutput V) : Except Unit (InternalFeeReturnsOutput V) :=
  match pr with
  | .error _ => .ok o
  | .ok r => (periodYield r addr).map (fun y => setF y o)

/-- Lines 112-132: construction of the output entry for one address drawn
from valid_results, applying the period loop in dictionary order daily,
weekly, monthly. -/
def buildEntity (d w m : Except ε (FeeReturnsAllResult V))
    (addr : List Char) (data : HypeData V) :
    Except Unit (InternalFeeReturnsOutput V) :=
  (applyPeriod d addr (fun y o => { o with daily := some y })
      { symbol := data.symbol, daily := none, weekly := none, monthly := none }).bind
    (fun o1 => (applyPeriod w addr (fun y o => { o with weekly := some y }) o1).bind
      (fun o2 => applyPeriod m addr (fun y o => { o with monthly := some y }) o2))

/-- Sequential construction of the output dictionary: the loop body runs
address by address and an uncaught exception aborts the whole call at the
first failing address. -/
def mapME (f : α → Except ε β) : List α → Except ε (List β)
  | [] => .ok []
  | a :: as =>
    match f a with
    | .error e => .error e
    | .ok b => (mapME f as).map (fun bs => b :: bs)

/-- Lines 91-134 of the internal routers file, after the deployment guard:
the three granularities are gathered with return_exceptions=True (so each
outcome arrives as a value or an Exception object) and merged into the
output dictionary. -/
def fee_returns_merge (d w m : Except ε (FeeReturnsAllResult V)) :
    Except Unit (List (List Char × InternalFeeReturnsOutput V)) :=
  match valid_results d w m with
  | .error e => .error e
  | .ok valid =>
    mapME (fun p => (buildEntity d w m p.1 p.2).map (fun o => (p.1, o))) valid

/-- Detail message of the unsupported-deployment error, the f-string
"{protocol} on {chain} not available.". -/
def not_available_detail (protocol chain : List Char) : List Char :=
  protocol ++ " on ".data ++ chain ++ " not available.".data

/-- Lines 86-89 of the internal routers file (fee_returns): unconditional
membership check of the (protocol, chain) pair against DEPLOYMENTS. The
table is external configuration, passed as a parameter. A some result is
an HTTPException 400 with that detail; none means the check passes. -/
def fee_returns_guard (deployments : List (List Char × List Char))
    (protocol chain : List Char) : Option (List Char) :=
  if (protocol, chain) ∈ deployments then none
  else some (not_available_detail protocol chain)

/-- Lines 176-179 and 210-213 of the internal routers file (gross_fees and
all_chain_usd_fees): the deployment check runs only when a protocol was
supplied. -/
def optional_protocol_guard (deployments : List (List Char × List Char))
    (protocol : Option (List Char)) (chain : List Char) : Option (List Char) :=
  match protocol with
  | none => none
  | some p => fee_returns_guard deployments p chain

/-- Observable outcome of the correlation endpoint: which collaborator was
invoked with which arguments, or an HTTPException. -/
inductive CorrelationResult
  | tokens (chains : List (List Char)) (token_addresses : List (List Char))
  | hypervisors (chain : List Char) (hypervisor_addresses : List (List Char))
  | httpError (code : Nat) (detail : List Char)
deriving DecidableEq

/-- Exact detail message of the missing-address-set error
(sources/frontend/endpoint/routers.py line 237). -/
def must_provide_detail : List Char :=
  "You must provide either token_addresses or hypervisor_address".data

/-- Lines 199-238 of the frontend routers file: the correlation route
after filter_addresses (an external collaborator) has been applied to the
two query parameters; the arguments here are its outputs, an absent
parameter yielding the empty list. Python list truthiness: a list is
truthy exactly when non-empty. -/
def correlation (chain : List Char)
    (token_addresses hypervisor_addresses : List (List Char)) : CorrelationResult :=
  if token_addresses ≠ [] then .tokens [chain] token_addresses
  else if hypervisor_addresses ≠ [] then .hypervisors chain hypervisor_addresses
  else .httpError 400 must_provide_detail

/-- Observable outcome of the returns CSV endpoint: a CSV attachment with
its filename, a 404 JSON body, or an uncaught NameError naming the
undefined identifier. -/
inductive CsvResult
  | csv (filename : List Char)
  | notFound404 (detail : List Char)
  | nameError (missing : List Char)
deriving DecidableEq

/-- Lines 272-308 of the frontend routers file
(hypervisor_analytics_return_detail): after decoding the period, the body
calls build_hype_return_analysis_from_database at line 291. That name is
neither defined in the module nor imported (the import block is lines
1-29). Python resolves global names at call time, so every invocation
raises NameError there, before any collaborator runs; neither the CSV
branch (lines 296-304) nor the 404 branch (lines 306-308) is ever
reached. -/
def hypervisor_analytics_return_detail (_chain _hypervisor_address : List Char)
    (_periodDays : Int) : CsvResult :=
  .nameError "build_hype_return_analysis_from_database".data

/-! ### Helper lemmas -/

/-- A string without a dash splits into a single segment. -/
lemma splitDash_no_dash (d : List Char) (hd : '-' ∉ d) : splitDash d = [d] := by
  induction d with
  | nil => rfl
  | cons c cs ih =>
    have hc : ¬ (c = '-') := fun h => hd (h ▸ List.mem_cons_self c cs)
    have hcs : '-' ∉ cs := fun h => hd (List.mem_cons_of_mem _ h)
    simp [splitDash, hc, ih hcs]

/-- Splitting "last-" followed by a dash-free tail yields exactly the two
segments "last" and the tail. -/
lemma splitDash_last (d : List Char) (hd : '-' ∉ d) :
    splitDash ("last-".data ++ d) = ["last".data, d] := by
  show splitDash ('l' :: 'a' :: 's' :: 't' :: '-' :: d) = [['l','a','s','t'], d]
  simp [splitDash, splitDash_no_dash d hd]

/-- Every character of a string accepted by digitsValAux is a digit. -/
lemma digitsValAux_digits (d : List Char) :
    ∀ acc n, digitsValAux acc d = some n → ∀ c ∈ d, (digitToNat c).isSome := by
  induction d with
  | nil => intro acc n _ c hc; cases hc
  | cons c0 cs ih =>
    intro acc n h c hc
    cases hc0 : digitToNat c0 with
    | none => rw [digitsValAux, hc0] at h; cases h
    | some k =>
      rw [digitsValAux, hc0] at h
      rcases List.mem_cons.mp hc with rfl | hmem
      · simp [hc0]
      · exact ih _ _ h c hmem

/-- Every character of a string accepted by digitsVal is a digit. -/
lemma digitsVal_digits (d : List Char) (n : Nat) (hd : digitsVal d = some n) :
    ∀ c ∈ d, (digitToNat c).isSome := by
  match d with
  | [] => intro c hc; cases hc
  | c0 :: cs => exact digitsValAux_digits (c0 :: cs) 0 n hd

/-- A string of digits contains no dash. -/
lemma digitsVal_no_dash (d : List Char) (n : Nat) (hd : digitsVal d = some n) :
    '-' ∉ d := by
  intro hmem
  have := digitsVal_digits d n hd '-' hmem
  exact absurd this (by decide)

/-- A digit character has code point between 48 and 57. -/
lemma digit_bounds (c : Char) (h : (digitToNat c).isSome) :
    48 ≤ c.toNat ∧ c.toNat ≤ 57 := by
  rw [digitToNat] at h
  by_cases hc : 48 ≤ c.toNat ∧ c.toNat ≤ 57
  · exact hc
  · rw [if_neg hc] at h; simp at h

/-- A digit character is not an underscore, a minus sign or a plus
sign. -/
lemma digit_not_special (c : Char) (h : (digitToNat c).isSome) :
    ¬ (c = '_') ∧ ¬ (c = '-') ∧ ¬ (c = '+') := by
  obtain ⟨h1, h2⟩ := digit_bounds c h
  refine ⟨?_, ?_, ?_⟩
  · intro h'; subst h'; exact absurd h2 (by decide)
  · intro h'; subst h'; exact absurd h1 (by decide)
  · intro h'; subst h'; exact absurd h1 (by decide)

/-- A digit character is not int() whitespace. -/
lemma isPySpace_digit_false (c : Char) (h : (digitToNat c).isSome) :
    isPySpace c = false := by
  obtain ⟨h1, _⟩ := digit_bounds c h
  simp only [isPySpace, decide_eq_false_iff_not]
  omega

/-- dropWhile leaves a list unchanged when no element satisfies the
predicate. -/
lemma dropWhile_eq_self_of (p : Char → Bool) (l : List Char)
    (h : ∀ c ∈ l, p c = false) : List.dropWhile p l = l := by
  cases l with
  | nil => rfl
  | cons c cs =>
    have hc : p c = false := h c (List.mem_cons_self c cs)
    simp [List.dropWhile, hc]

/-- Stripping whitespace leaves a whitespace-free string unchanged. -/
lemma stripWs_eq_self (l : List Char) (h : ∀ c ∈ l, isPySpace c = false) :
    stripWs l = l := by
  rw [stripWs, dropWhile_eq_self_of _ _ h,
    dropWhile_eq_self_of _ _ (fun c hc => h c (List.mem_reverse.mp hc)),
    List.reverse_reverse]

/-- On all-digit strings the underscore-aware scanner, entered right
after a digit, agrees with the plain digit accumulator. -/
lemma pyDigits_eq_digitsValAux (cs : List Char) :
    ∀ acc, (∀ c ∈ cs, (digitToNat c).isSome) →
      pyDigits true acc cs = digitsValAux acc cs := by
  induction cs with
  | nil => intro acc _; rfl
  | cons c cs' ih =>
    intro acc h
    have hdig := h c (List.mem_cons_self c cs')
    have hne : ¬ (c = '_') := (digit_not_special c hdig).1
    rw [pyDigits, if_neg hne, digitsValAux]
    cases hd0 : digitToNat c with
    | none => simp [hd0]
    | some d =>
      simp only [hd0]
      exact ih (acc * 10 + d) (fun x hx => h x (List.mem_cons_of_mem _ hx))

/-- Python int() succeeds on a digit string with the same value. -/
lemma pyInt_of_digitsVal (d : List Char) (n : Nat) (hd : digitsVal d = some n) :
    pyInt d = some (n : Int) := by
  match d with
  | [] => simp [digitsVal] at hd
  | c :: cs =>
    have hall := digitsVal_digits (c :: cs) n hd
    have hstrip : stripWs (c :: cs) = c :: cs :=
      stripWs_eq_self _ (fun x hx => isPySpace_digit_false x (hall x hx))
    have hdig : (digitToNat c).isSome := hall c (List.mem_cons_self c cs)
    obtain ⟨hne_u, hne_m, hne_p⟩ := digit_not_special c hdig
    rw [pyInt, hstrip, pyIntSigned, if_neg hne_m, if_neg hne_p]
    suffices hcore : pyIntCore (c :: cs) = some n by rw [hcore]; rfl
    rw [pyIntCore, pyDigits, if_neg hne_u]
    cases hd0 : digitToNat c with
    | none => rw [hd0] at hdig; simp at hdig
    | some d0 =>
      simp only [hd0]
      have hrest : pyDigits true (0 * 10 + d0) cs = digitsValAux (0 * 10 + d0) cs :=
        pyDigits_eq_digitsValAux cs (0 * 10 + d0)
          (fun x hx => hall x (List.mem_cons_of_mem _ hx))
      have hdv : digitsValAux (0 * 10 + d0) cs = some n := by
        have h0 : digitsValAux 0 (c :: cs) = some n := hd
        rw [digitsValAux] at h0
        simpa [hd0] using h0
      exact hrest.trans hdv

/-- The token "last-" followed by anything is not the token "last". -/
lemma last_dash_ne_last (d : List Char) : ("last-".data ++ d) ≠ "last".data := by
  intro h
  have h' : ('l' :: 'a' :: 's' :: 't' :: '-' :: d) = ['l','a','s','t'] := h
  simp at h'

/-- The token "last-" followed by anything starts with "last". -/
lemma last_isPrefix (d : List Char) :
    "last".data.isPrefixOf ("last-".data ++ d) = true := rfl

/-- gatherStrict succeeds exactly when every request succeeded, returning
the values in request order. -/
lemma gatherStrict_ok_iff (xs : List (Except ε α)) (l : List α) :
    gatherStrict xs = .ok l ↔ xs = l.map Except.ok := by
  induction xs generalizing l with
  | nil =>
    cases l with
    | nil => simp [gatherStrict]
    | cons b bs => simp [gatherStrict]
  | cons x xs ih =>
    cases x with
    | error e =>
      simp only [gatherStrict]
      constructor
      · intro h; cases h
      · intro h
        cases l with
        | nil => cases h
        | cons b bs => cases h
    | ok a =>
      simp only [gatherStrict]
      cases hg : gatherStrict xs with
      | error e =>
        simp only [Except.map]
        constructor
        · intro h; cases h
        · intro h
          cases l with
          | nil => cases h
          | cons b bs =>
            have hb : a = b ∧ xs = bs.map Except.ok := by
              constructor
              · exact Except.ok.inj (List.cons.inj h).1
              · exact (List.cons.inj h).2
            have := (ih bs).mpr hb.2
            rw [this] at hg; cases hg
      | ok l' =>
        simp only [Except.map]
        constructor
        · intro h
          have hl : l = a :: l' := (Except.ok.inj h).symm
          subst hl
          have := (ih l').mp hg
          simp [this]
        · intro h
          cases l with
          | nil => cases h
          | cons b bs =>
            have hab : Except.ok a = Except.ok b := (List.cons.inj h).1
            have hxs : xs = bs.map Except.ok := (List.cons.inj h).2
            have := (ih bs).mpr hxs
            rw [this] at hg
            have hlb : l' = bs := (Except.ok.inj hg).symm
            rw [Except.ok.inj hab, hlb]

/-- When some request failed, gatherStrict propagates one of the failures
instead of returning a list. -/
lemma gatherStrict_error_of_mem (xs : List (Except ε α))
    (hx : ∃ r ∈ xs, r.isOk = false) :
    ∃ e, gatherStrict xs = .error e ∧ Except.error e ∈ xs := by
  induction xs with
  | nil => simp at hx
  | cons x xs ih =>
    cases x with
    | error e =>
      exact ⟨e, rfl, List.mem_cons_self _ _⟩
    | ok a =>
      obtain ⟨r, hr, hro⟩ := hx
      rcases List.mem_cons.mp hr with rfl | hmem
      · simp [Except.isOk, Except.toBool] at hro
      · obtain ⟨e, hge, hme⟩ := ih ⟨r, hmem, hro⟩
        refine ⟨e, ?_, List.mem_cons_of_mem _ hme⟩
        simp only [gatherStrict, hge, Except.map]

/-- A successful mapME result corresponds elementwise: every output element
comes from some input element. -/
lemma mapME_ok_mem (f : α → Except ε β) (l : List α) (out : List β)
    (h : mapME f l = .ok out) : ∀ b ∈ out, ∃ a ∈ l, f a = .ok b := by
  induction l generalizing out with
  | nil =>
    have : out = [] := (Except.ok.inj h).symm
    subst this
    intro b hb; cases hb
  | cons a as ih =>
    cases hfa : f a with
    | error e => rw [mapME, hfa] at h; cases h
    | ok b0 =>
      rw [mapME, hfa] at h
      cases hms : mapME f as with
      | error e => rw [hms] at h; cases h
      | ok bs =>
        rw [hms] at h
        have hout : out = b0 :: bs := (Except.ok.inj h).symm
        subst hout
        intro b hb
        rcases List.mem_cons.mp hb with rfl | hmem
        · exact ⟨a, List.mem_cons_self _ _, hfa⟩
        · obtain ⟨a', ha', hfa'⟩ := ih bs hms b hmem
          exact ⟨a', List.mem_cons_of_mem _ ha', hfa'⟩

/-- A successful mapME over a pair-tagging function preserves the list of
first components. -/
lemma mapME_pair_fst {κ δ : Type} (g : κ → δ → Except ε β)
    (v : List (κ × δ)) (out : List (κ × β))
    (h : mapME (fun p => (g p.1 p.2).map (fun o => (p.1, o))) v = .ok out) :
    out.map Prod.fst = v.map Prod.fst := by
  induction v generalizing out with
  | nil =>
    have : out = [] := (Except.ok.inj h).symm
    subst this; rfl
  | cons p ps ih =>
    cases hg : g p.1 p.2 with
    | error e => rw [mapME, hg] at h; cases h
    | ok o =>
      rw [mapME, hg] at h
      cases hms : mapME (fun p => (g p.1 p.2).map (fun o => (p.1, o))) ps with
      | error e => rw [hms] at h; cases h
      | ok rest =>
        rw [hms] at h
        have hout : out = (p.1, o) :: rest := (Except.ok.inj h).symm
        subst hout
        simp [ih rest hms]

/-- Decomposition of one successful period-loop iteration: either the
period was an Exception and the entry is unchanged, or the period
succeeded and the attribute was set from its data. -/
lemma applyPeriod_ok (pr : Except ε (FeeReturnsAllResult V)) (addr : List Char)
    (setF : InternalFeeYield V → InternalFeeReturnsOutput V → InternalFeeReturnsOutput V)
    (o o' : InternalFeeReturnsOutput V)
    (h : applyPeriod pr addr setF o = .ok o') :
    (pr.isOk = false ∧ o' = o) ∨
      (pr.isOk = true ∧ ∃ r y, pr = .ok r ∧ periodYield r addr = .ok y ∧ o' = setF y o) := by
  cases pr with
  | error e =>
    left
    refine ⟨rfl, ?_⟩
    exact (Except.ok.inj h).symm
  | ok r =>
    right
    refine ⟨rfl, ?_⟩
    cases hy : periodYield r addr with
    | error e =>
      rw [applyPeriod, hy] at h
      cases h
    | ok y =>
      rw [applyPeriod, hy] at h
      simp only [Except.map] at h
      exact ⟨r, y, rfl, hy, (Except.ok.inj h).symm⟩

/-- In a successfully built output entry, each period field is populated
exactly when that period succeeded, and the symbol is the one of the
source data. -/
lemma buildEntity_fields (d w m : Except ε (FeeReturnsAllResult V))
    (addr : List Char) (data : HypeData V) (o : InternalFeeReturnsOutput V)
    (h : buildEntity d w m addr data = .ok o) :
    o.symbol = data.symbol ∧ o.daily.isSome = d.isOk ∧
      o.weekly.isSome = w.isOk ∧ o.monthly.isSome = m.isOk := by
  unfold buildEntity at h
  cases h1 : applyPeriod d addr (fun y o => { o with daily := some y })
      { symbol := data.symbol, daily := none, weekly := none, monthly := none } with
  | error e => rw [h1] at h; cases h
  | ok o1 =>
    rw [h1] at h
    simp only [Except.bind] at h
    cases h2 : applyPeriod w addr (fun y o => { o with weekly := some y }) o1 with
    | error e => rw [h2] at h; cases h
    | ok o2 =>
      rw [h2] at h
      simp only [Except.bind] at h
      have h3 : applyPeriod m addr (fun y o => { o with monthly := some y }) o2 = .ok o := h
      have f1 : o1.symbol = data.symbol ∧ o1.daily.isSome = d.isOk ∧
          o1.weekly = none ∧ o1.monthly = none := by
        rcases applyPeriod_ok d addr _ _ _ h1 with ⟨hd, rfl⟩ | ⟨hd, r, y, _, _, rfl⟩
        · simp [hd]
        · simp [hd]
      have f2 : o2.symbol = o1.symbol ∧ o2.daily = o1.daily ∧
          o2.weekly.isSome = w.isOk ∧ o2.monthly = o1.monthly := by
        rcases applyPeriod_ok w addr _ _ _ h2 with ⟨hw, rfl⟩ | ⟨hw, r, y, _, _, rfl⟩
        · simp [hw, f1.2.2.1]
        · simp [hw]
      have f3 : o.symbol = o2.symbol ∧ o.daily = o2.daily ∧
          o.weekly = o2.weekly ∧ o.monthly.isSome = m.isOk := by
        rcases applyPeriod_ok m addr _ _ _ h3 with ⟨hm, rfl⟩ | ⟨hm, r, y, _, _, rfl⟩
        · simp [hm, f2.2.2.2, f1.2.2.2]
        · simp [hm]
      refine ⟨?_, ?_, ?_, f3.2.2.2⟩
      · rw [f3.1, f2.1, f1.1]
      · rw [f3.2.1, f2.2.1]; exact f1.2.1
      · rw [f3.2.2.1]; exact f2.2.2.1

/-- Length of the partition list. -/
lemma week_timestamps_length (S E : Int) :
    (week_timestamps S E).length = ((E - S).fdiv week_in_seconds).toNat := by
  unfold week_timestamps
  rw [List.length_map, List.length_range]

/-- Element formula of the partition list. -/
lemma week_timestamps_get (S E : Int) (i : Nat)
    (h : i < (week_timestamps S E).length) :
    (week_timestamps S E).get ⟨i, h⟩ =
      ((i : Int), S + week_in_seconds * (i : Int),
        S + week_in_seconds * ((i : Int) + 1) - 1) := by
  simp only [week_timestamps, List.get_eq_getElem, List.getElem_map,
    List.getElem_range]

/-- A string "last-" followed by a digit string resolves to midnight minus
that many plus one weeks. -/
lemma resolve_last_n (midnight : Int) (d : List Char) (n : Nat)
    (hd : digitsVal d = some n) :
    resolveWeekStartStr ("last-".data ++ d) midnight =
      .ok (midnight - week_in_seconds * ((n : Int) + 1)) := by
  have hnd : '-' ∉ d := digitsVal_no_dash d n hd
  rw [resolveWeekStartStr, if_neg (last_dash_ne_last d), if_pos (last_isPrefix d),
    splitDash_last d hnd]
  simp only [pyInt_of_digitsVal d n hd]

/-- Concrete all-succeeding fees collaborator used by several witnesses:
returns the arguments it was called with. -/
def triplefees : Int → Int → Int → Except Unit (Int × Int × Int) :=
  fun w s e => .ok (w, s, e)

/-- Concrete fees collaborator whose call for weeknum 2 raises. -/
def fees3 : Int → Int → Int → Except (List Char) Nat :=
  fun w _ _ => if w = 2 then .error "boom".data else .ok 7

/-- Concrete fees collaborator returning its weeknum. -/
def wkfees : Int → Int → Int → Except Unit Int :=
  fun w _ _ => .ok w

/-! ### Claim theorems -/

/-- C2: for every resolved window with start S, end E and the fixed unit
length 604800, the partition built by weekly_chain_usd_fees has exactly
floor((E - S) / U) sub-windows when S is at most E; sub-window i spans
start S + i * U and end S + (i + 1) * U - 1, so each sub-window is exactly
U long and consecutive sub-windows are contiguous and non-overlapping with
no partial trailing sub-window; and when the count is zero or the start
exceeds the end the partition is the empty sequence, not an error. -/
theorem weekly_partition_spec (S E : Int) :
    (S ≤ E → ((week_timestamps S E).length : Int) = (E - S).fdiv week_in_seconds) ∧
    (∀ i : Nat, ∀ h : i < (week_timestamps S E).length,
      (week_timestamps S E).get ⟨i, h⟩ =
        ((i : Int), S + week_in_seconds * (i : Int),
          S + week_in_seconds * ((i : Int) + 1) - 1)) ∧
    (∀ i : Nat, ∀ h : i < (week_timestamps S E).length,
      ((week_timestamps S E).get ⟨i, h⟩).2.2 -
        ((week_timestamps S E).get ⟨i, h⟩).2.1 + 1 = week_in_seconds) ∧
    (∀ i : Nat, ∀ h : i + 1 < (week_timestamps S E).length,
      ((week_timestamps S E).get ⟨i + 1, h⟩).2.1 =
        ((week_timestamps S E).get ⟨i, Nat.lt_of_succ_lt h⟩).2.2 + 1) ∧
    (E < S → week_timestamps S E = []) ∧
    ((E - S).fdiv week_in_seconds = 0 → week_timestamps S E = []) := by
  have hU : (0 : Int) ≤ week_in_seconds := by decide
  refine ⟨?_, ?_, ?_, ?_, ?_, ?_⟩
  · intro hSE
    rw [week_timestamps_length]
    exact Int.toNat_of_nonneg (by
      rw [Int.fdiv_eq_ediv _ hU]
      exact Int.ediv_nonneg (by omega) hU)
  · intro i h
    exact week_timestamps_get S E i h
  · intro i h
    rw [week_timestamps_get S E i h]
    ring
  · intro i h
    rw [week_timestamps_get S E (i + 1) h, week_timestamps_get S E i _]
    push_cast
    ring
  · intro hE
    unfold week_timestamps
    have hlt : (E - S).fdiv week_in_seconds < 0 := by
      rw [Int.fdiv_eq_ediv _ hU]
      exact Int.ediv_neg' (by omega) (by decide)
    rw [Int.toNat_eq_zero.mpr (le_of_lt hlt)]
    rfl
  · intro h0
    unfold week_timestamps
    rw [h0]
    rfl

/-- Witness for C2 at the concrete window from 0 to 1209605 with unit
604800: the partition has two sub-windows, sub-window 1 has the stated
bounds, and a reversed window from 5 to 3 partitions into nothing. -/
theorem weekly_partition_spec_witness :
    ((week_timestamps 0 1209605).length : Int) =
      ((1209605 : Int) - 0).fdiv week_in_seconds ∧
    (week_timestamps 0 1209605).get ⟨1, by decide⟩ =
      (((1 : Nat) : Int), 0 + week_in_seconds * ((1 : Nat) : Int),
        0 + week_in_seconds * (((1 : Nat) : Int) + 1) - 1) ∧
    week_timestamps 5 3 = [] :=
  ⟨(weekly_partition_spec 0 1209605).1 (by decide),
   (weekly_partition_spec 0 1209605).2.1 1 (by decide),
   (weekly_partition_spec 5 3).2.2.2.2.1 (by decide)⟩

/-- C3: at a current instant whose UTC day starts at epoch timestamp
midnight, the string "last" resolves the window start to midnight minus
one week of 604800 seconds, and the string "last-" followed by the decimal
digits of a non-negative integer N resolves it to midnight minus N + 1
weeks; in particular "last-2" resolves to midnight minus 3 weeks. -/
theorem weekly_resolve_last_spec (midnight : Int) (d : List Char) (n : Nat)
    (hd : digitsVal d = some n) :
    resolveWeekStartStr "last".data midnight = .ok (midnight - week_in_seconds) ∧
    resolveWeekStartStr ("last-".data ++ d) midnight =
      .ok (midnight - week_in_seconds * ((n : Int) + 1)) ∧
    resolveWeekStartStr "last-2".data midnight =
      .ok (midnight - 3 * week_in_seconds) := by
  refine ⟨?_, resolve_last_n midnight d n hd, ?_⟩
  · rw [resolveWeekStartStr, if_pos rfl]
  · have h2 := resolve_last_n midnight ['2'] 2 (by decide)
    have heq : ("last-".data ++ ['2']) = "last-2".data := by decide
    rw [heq] at h2
    rw [h2]
    have : midnight - week_in_seconds * (((2 : Nat) : Int) + 1) =
        midnight - 3 * week_in_seconds := by push_cast; ring
    rw [this]

/-- Witness for C3 at midnight 1700000000 and N = 7. -/
theorem weekly_resolve_last_spec_witness :
    resolveWeekStartStr "last".data 1700000000 =
      .ok (1700000000 - week_in_seconds) ∧
    resolveWeekStartStr ("last-".data ++ ['7']) 1700000000 =
      .ok (1700000000 - week_in_seconds * (((7 : Nat) : Int) + 1)) ∧
    resolveWeekStartStr "last-2".data 1700000000 =
      .ok (1700000000 - 3 * week_in_seconds) :=
  weekly_resolve_last_spec 1700000000 ['7'] 7 (by decide)

/-- C4 counterexample: the token "bogus" does fail with status 400, but
the detail message is the fixed text, which does not name the bad token;
and the token "last-x", which also matches neither "last" nor
"last-<non-negative-integer>", raises an uncaught ValueError instead of a
client error. -/
theorem weekly_invalid_token_counterexample :
    resolveWeekStartStr "bogus".data 0 = .httpError400 invalid_week_detail ∧
    ¬ List.IsInfix "bogus".data invalid_week_detail ∧
    resolveWeekStartStr "last-x".data 0 = .valueError := by decide

/-- C4 amended: a week_start_timestamp string that is not "last" and
either does not start with "last" or does not split on the dash into
exactly two parts fails with HTTP 400 and the fixed detail message
"Invalid week start timestamp.", which does not name the bad token. A
string that passes that loose guard has the part after the dash handed to
int(): when int() rejects it (stated for all-ASCII tails, where the int()
model is exact), the endpoint raises an uncaught ValueError instead of a
client error; when int() accepts it, the start resolves successfully,
even for tokens such as "last-1_0" or "last- 5" that do not match
"last-<non-negative-integer>". -/
theorem weekly_invalid_token_amended (s : List Char) (midnight : Int) :
    (s ≠ "last".data →
      ("last".data.isPrefixOf s = false ∨ (splitDash s).length ≠ 2) →
      resolveWeekStartStr s midnight = .httpError400 invalid_week_detail) ∧
    (∀ a b : List Char, "last".data.isPrefixOf s = true → splitDash s = [a, b] →
      (∀ c ∈ b, c.toNat < 128) → pyInt b = none →
      resolveWeekStartStr s midnight = .valueError) ∧
    (∀ a b : List Char, ∀ n : Int, "last".data.isPrefixOf s = true →
      splitDash s = [a, b] → pyInt b = some n →
      resolveWeekStartStr s midnight =
        .ok (midnight - week_in_seconds * (n + 1))) := by
  refine ⟨?_, ?_, ?_⟩
  · intro hne hc
    rw [resolveWeekStartStr, if_neg hne]
    rcases hc with hpre | hlen
    · rw [if_neg (by simp [hpre])]
    · cases hpre : "last".data.isPrefixOf s with
      | false => rw [if_neg (by simp)]
      | true =>
        rw [if_pos rfl]
        cases hsp : splitDash s with
        | nil => rfl
        | cons a tail =>
          cases tail with
          | nil => rfl
          | cons b tail2 =>
            cases tail2 with
            | nil => rw [hsp] at hlen; simp at hlen
            | cons c rest => rfl
  · intro a b hpre hsp _hascii hpy
    have hne : s ≠ "last".data := by
      intro h
      subst h
      have hls : splitDash "last".data = ["last".data] := by decide
      rw [hls] at hsp
      simp at hsp
    rw [resolveWeekStartStr, if_neg hne, if_pos hpre, hsp]
    simp only [hpy]
  · intro a b n hpre hsp hpy
    have hne : s ≠ "last".data := by
      intro h
      subst h
      have hls : splitDash "last".data = ["last".data] := by decide
      rw [hls] at hsp
      simp at hsp
    rw [resolveWeekStartStr, if_neg hne, if_pos hpre, hsp]
    simp only [hpy]

/-- Witness for C4 amended: the token "nope" gets the fixed 400 message,
the token "last-y" raises ValueError, and the tokens "last-1_0" and
"last- 5" resolve successfully because int() accepts underscore
separators between digits and surrounding whitespace. -/
theorem weekly_invalid_token_amended_witness :
    resolveWeekStartStr "nope".data 5 = .httpError400 invalid_week_detail ∧
    resolveWeekStartStr "last-y".data 5 = .valueError ∧
    resolveWeekStartStr "last-1_0".data 5 =
      .ok (5 - week_in_seconds * (10 + 1)) ∧
    resolveWeekStartStr "last- 5".data 5 =
      .ok (5 - week_in_seconds * (5 + 1)) :=
  ⟨(weekly_invalid_token_amended "nope".data 5).1 (by decide) (Or.inl (by decide)),
   (weekly_invalid_token_amended "last-y".data 5).2.1 "last".data ['y']
     (by decide) (by decide) (by decide) (by decide),
   (weekly_invalid_token_amended "last-1_0".data 5).2.2 "last".data "1_0".data 10
     (by decide) (by decide) (by decide),
   (weekly_invalid_token_amended "last- 5".data 5).2.2 "last".data " 5".data 5
     (by decide) (by decide) (by decide)⟩

/-- C6 counterexample: supplying the integer 0 as week_start_timestamp
does not use 0 as the window start; the falsy value is replaced by the
current timestamp, so with now = 1209600 the window is empty and the
endpoint returns an empty array, even though the partition starting at 0
would have been non-empty. -/
theorem week_start_zero_counterexample :
    start_timestamp_of 0 1209600 = 1209600 ∧
    weekly_chain_usd_fees (.int 0) 0 1209600 triplefees = .ok [] ∧
    week_timestamps 0 1209600 ≠ [] := by decide

/-- C6 amended: every non-zero integer week_start_timestamp is used
verbatim as the window start, but the integer 0 is falsy in the or-chain
of line 317 and is replaced by the current timestamp, so the window is
empty and the endpoint returns an empty array. -/
theorem week_start_verbatim_amended {ε α : Type} (n midnight now : Int)
    (fees : Int → Int → Int → Except ε α) :
    (n ≠ 0 → start_timestamp_of n now = n ∧
      weekly_chain_usd_fees (.int n) midnight now fees = weekly_core n now fees) ∧
    start_timestamp_of 0 now = now ∧
    weekly_chain_usd_fees (.int 0) midnight now fees = .ok [] := by
  refine ⟨fun hn => ⟨?_, ?_⟩, ?_, ?_⟩
  · rw [start_timestamp_of, if_neg hn]
  · show weekly_core (start_timestamp_of n now) now fees = weekly_core n now fees
    rw [start_timestamp_of, if_neg hn]
  · rw [start_timestamp_of, if_pos rfl]
  · show weekly_core (start_timestamp_of 0 now) now fees = .ok []
    rw [start_timestamp_of, if_pos rfl, weekly_core]
    have hempty : week_timestamps now now = [] := by
      unfold week_timestamps
      rw [sub_self, Int.zero_fdiv]
      rfl
    rw [hempty]
    rfl

/-- Witness for C6 amended at n = 7, now = 100. -/
theorem week_start_verbatim_amended_witness :
    (start_timestamp_of 7 100 = 7 ∧
      weekly_chain_usd_fees (.int 7) 0 100 triplefees =
        weekly_core 7 100 triplefees) ∧
    weekly_chain_usd_fees (.int 0) 0 100 triplefees = .ok [] :=
  ⟨(week_start_verbatim_amended 7 0 100 triplefees).1 (by decide),
   (week_start_verbatim_amended 7 0 100 triplefees).2.2⟩

/-- C8: the claim describes the intended behavior, but the module never
imports or defines build_hype_return_analysis_from_database, so every call
to the returns CSV endpoint raises an uncaught NameError at line 291
before either the CSV attachment branch or the 404 branch can run. -/
theorem csv_endpoint_name_error :
    hypervisor_analytics_return_detail "ethereum".data "0x123abc".data 7 =
      .nameError "build_hype_return_analysis_from_database".data ∧
    ∀ chain addr days, hypervisor_analytics_return_detail chain addr days =
      .nameError "build_hype_return_analysis_from_database".data :=
  ⟨rfl, fun _ _ _ => rfl⟩

/-- C9 counterexample: with both address sets non-empty the parameters do
not satisfy "exactly one non-empty", yet the call does not fail; it
invokes get_correlation with the token addresses. -/
theorem correlation_both_sets_counterexample :
    (["0xtok".data] : List (List Char)) ≠ [] ∧
    (["0xhyp".data] : List (List Char)) ≠ [] ∧
    correlation "ethereum".data ["0xtok".data] ["0xhyp".data] =
      .tokens ["ethereum".data] ["0xtok".data] := by decide

/-- C9 amended: at least one of the two address-set parameters must be
non-empty after address filtering; when both are empty the call fails
with HTTP 400 and exactly the message "You must provide either
token_addresses or hypervisor_address", and otherwise no error is
raised. -/
theorem correlation_validation_amended (chain : List Char)
    (t h : List (List Char)) :
    (t = [] → h = [] → correlation chain t h = .httpError 400 must_provide_detail) ∧
    (t ≠ [] → correlation chain t h = .tokens [chain] t) ∧
    (t = [] → h ≠ [] → correlation chain t h = .hypervisors chain h) := by
  refine ⟨?_, ?_, ?_⟩ <;> intros <;> simp [correlation, *]

/-- Witness for C9 amended: both sets empty yields the exact 400 message,
and a token-only call succeeds. -/
theorem correlation_validation_amended_witness :
    correlation "polygon".data [] [] = .httpError 400 must_provide_detail ∧
    correlation "polygon".data ["0xa".data] [] =
      .tokens ["polygon".data] ["0xa".data] :=
  ⟨(correlation_validation_amended "polygon".data [] []).1 rfl rfl,
   (correlation_validation_amended "polygon".data ["0xa".data] []).2.1 (by decide)⟩

/-- C10: when both token_addresses and hypervisor_addresses are non-empty
after address filtering, no error is raised; get_correlation is invoked
with the token addresses and the hypervisor addresses are ignored. -/
theorem correlation_token_precedence (chain : List Char)
    (t h : List (List Char)) (ht : t ≠ []) (hh : h ≠ []) :
    correlation chain t h = .tokens [chain] t := by
  simp [correlation, ht]

/-- Witness for C10 at concrete addresses. -/
theorem correlation_token_precedence_witness :
    correlation "optimism".data ["0xt1".data] ["0xh1".data] =
      .tokens ["optimism".data] ["0xt1".data] :=
  correlation_token_precedence "optimism".data ["0xt1".data] ["0xh1".data]
    (by decide) (by decide)

/-- C1 counterexample: a three-week window starting at 604800 with now at
2419200 dispatches three sub-window requests, and when only the request
for week 2 of 3 raises, the endpoint does not return an array of length 3
with a failure marker at position 1; the exception propagates out of
asyncio.gather and the whole call fails. -/
theorem weekly_failure_not_isolated_counterexample :
    (week_timestamps 604800 2419200).length = 3 ∧
    weekly_chain_usd_fees (.int 604800) 0 2419200 fees3 =
      .raised "boom".data := by decide

/-- C1 amended: the per-sub-window aggregation calls are dispatched
concurrently, but asyncio.gather is called without return_exceptions, so
there is no failure isolation: when every sub-window call succeeds the
endpoint returns exactly one entry per dispatched sub-window in order,
and when any sub-window call raises, the exception propagates and the
endpoint call fails as a whole, returning no array and no per-position
failure marker. -/
theorem weekly_gather_propagates_failure {ε α : Type} (n midnight now : Int)
    (fees : Int → Int → Int → Except ε α) (v : Int → Int → Int → α)
    (hn : n ≠ 0) :
    ((∀ w s e, fees w s e = .ok (v w s e)) →
      weekly_chain_usd_fees (.int n) midnight now fees =
        .ok ((week_timestamps n now).map (fun t => v (t.1 + 1) t.2.1 t.2.2))) ∧
    ((∃ r ∈ (week_timestamps n now).map (fun t => fees (t.1 + 1) t.2.1 t.2.2),
        r.isOk = false) →
      ∃ e, weekly_chain_usd_fees (.int n) midnight now fees = .raised e ∧
        Except.error e ∈ (week_timestamps n now).map
          (fun t => fees (t.1 + 1) t.2.1 t.2.2)) := by
  have hred : weekly_chain_usd_fees (.int n) midnight now fees =
      weekly_core n now fees := by
    show weekly_core (start_timestamp_of n now) now fees = weekly_core n now fees
    rw [start_timestamp_of, if_neg hn]
  constructor
  · intro hf
    rw [hred, weekly_core]
    have hmaps : (week_timestamps n now).map (fun t => fees (t.1 + 1) t.2.1 t.2.2) =
        ((week_timestamps n now).map (fun t => v (t.1 + 1) t.2.1 t.2.2)).map
          Except.ok := by
      rw [List.map_map]
      exact List.map_congr_left (fun t _ => hf (t.1 + 1) t.2.1 t.2.2)
    have hg := (gatherStrict_ok_iff
      ((week_timestamps n now).map (fun t => fees (t.1 + 1) t.2.1 t.2.2))
      ((week_timestamps n now).map (fun t => v (t.1 + 1) t.2.1 t.2.2))).mpr hmaps
    rw [hg]
  · intro hx
    obtain ⟨e, hge, hme⟩ := gatherStrict_error_of_mem _ hx
    refine ⟨e, ?_, hme⟩
    rw [hred, weekly_core, hge]

/-- Witness for C1 amended: with an all-succeeding collaborator the
two-week window from 604800 to 1814400 yields exactly one entry per
sub-window, in order. -/
theorem weekly_gather_propagates_failure_witness :
    weekly_chain_usd_fees (.int 604800) 0 1814400 triplefees =
      .ok [(1, 604800, 1209599), (2, 1209600, 1814399)] := by
  have h := (weekly_gather_propagates_failure 604800 0 1814400 triplefees
    (fun w s e => (w, s, e)) (by decide)).1 (fun _ _ _ => rfl)
  rw [h]
  decide

/-- Concrete fee_returns_all data used in the C5 counterexample: one
hypervisor address "x" present in both the lp and total dictionaries. -/
def hypx : HypeData Int :=
  { symbol := "WETH-USDC".data, status := "ok".data, feeApr := 1, feeApy := 2 }

/-- Concrete daily granularity result for the C5 counterexample. -/
def dres : FeeReturnsAllResult Int :=
  { lp := [("x".data, hypx)], total := [("x".data, hypx)] }

/-- Concrete weekly granularity result for the C5 counterexample. -/
def wres : FeeReturnsAllResult Int :=
  { lp := [("x".data, hypx)], total := [("x".data, hypx)] }

/-- Yield entry produced from hypx. -/
def hypxYield : InternalFeeYield Int :=
  { totalApr := 1, totalApy := 2, lpApr := 1, lpApy := 2,
    status := "Total:ok, LP: ok".data }

/-- C5 counterexample: when the daily and weekly granularities both
succeed for entity "x", the merge does not ignore the coarser weekly
result; the output entry for "x" carries the weekly data as well. And
when all three granularities fail, the endpoint does not omit entities:
subscripting the Exception object raises an uncaught TypeError, so the
whole call fails. -/
theorem fee_returns_merge_counterexample :
    fee_returns_merge (Except.ok dres : Except Unit (FeeReturnsAllResult Int))
        (Except.ok wres) (Except.error ()) =
      .ok [("x".data,
        { symbol := "WETH-USDC".data, daily := some hypxYield,
          weekly := some hypxYield, monthly := none })] ∧
    fee_returns_merge (Except.error () : Except Unit (FeeReturnsAllResult Int))
        (Except.error ()) (Except.error ()) = .error () := by decide

/-- C5 amended: the entity key set of the merged output is drawn from the
finest granularity whose gathered result succeeded, in the fixed order
daily, weekly, monthly; but for each such entity the output carries a
yield entry for every granularity that succeeded, not only the finest
one; and when all three granularities fail the endpoint does not omit
entities or return an empty result: it raises an uncaught TypeError. -/
theorem fee_returns_merge_amended {ε V : Type}
    (d w m : Except ε (FeeReturnsAllResult V)) :
    (d.isOk = false → w.isOk = false → m.isOk = false →
      fee_returns_merge d w m = .error ()) ∧
    (∀ dr, d = .ok dr → valid_results d w m = .ok dr.lp) ∧
    (∀ wr, d.isOk = false → w = .ok wr → valid_results d w m = .ok wr.lp) ∧
    (∀ mr, d.isOk = false → w.isOk = false → m = .ok mr →
      valid_results d w m = .ok mr.lp) ∧
    (∀ out, fee_returns_merge d w m = .ok out →
      (∃ valid, valid_results d w m = .ok valid ∧
        out.map Prod.fst = valid.map Prod.fst) ∧
      ∀ p ∈ out, p.2.daily.isSome = d.isOk ∧ p.2.weekly.isSome = w.isOk ∧
        p.2.monthly.isSome = m.isOk) := by
  refine ⟨?_, ?_, ?_, ?_, ?_⟩
  · intro hd hw hm
    cases d with
    | ok dr => simp [Except.isOk, Except.toBool] at hd
    | error ed =>
      cases w with
      | ok wr => simp [Except.isOk, Except.toBool] at hw
      | error ew =>
        cases m with
        | ok mr => simp [Except.isOk, Except.toBool] at hm
        | error em => rfl
  · intro dr hdr
    subst hdr
    rfl
  · intro wr hd hwr
    subst hwr
    cases d with
    | ok dr => simp [Except.isOk, Except.toBool] at hd
    | error ed => rfl
  · intro mr hd hw hmr
    subst hmr
    cases d with
    | ok dr => simp [Except.isOk, Except.toBool] at hd
    | error ed =>
      cases w with
      | ok wr => simp [Except.isOk, Except.toBool] at hw
      | error ew => rfl
  · intro out hout
    rw [fee_returns_merge] at hout
    cases hv : valid_results d w m with
    | error e => rw [hv] at hout; cases hout
    | ok valid =>
      rw [hv] at hout
      refine ⟨⟨valid, rfl, mapME_pair_fst (buildEntity d w m) valid out hout⟩, ?_⟩
      intro p hp
      obtain ⟨q, _, hb⟩ := mapME_ok_mem _ valid out hout p hp
      cases hbe : buildEntity d w m q.1 q.2 with
      | error e => rw [hbe] at hb; cases hb
      | ok o =>
        rw [hbe] at hb
        have hpo : p = (q.1, o) := (Except.ok.inj hb).symm
        have hf := buildEntity_fields d w m q.1 q.2 o hbe
        rw [hpo]
        exact ⟨hf.2.1, hf.2.2.1, hf.2.2.2⟩

/-- Witness for C5 amended at the concrete counterexample data: the key
selection picks the daily lp dictionary, the merged output for "x" has
daily and weekly populated and monthly empty, and the all-failed case
errors. -/
theorem fee_returns_merge_amended_witness :
    valid_results (Except.ok dres : Except Unit (FeeReturnsAllResult Int))
        (Except.ok wres) (Except.error ()) = .ok dres.lp ∧
    fee_returns_merge (Except.error () : Except Unit (FeeReturnsAllResult Int))
        (Except.error ()) (Except.error ()) = .error () ∧
    (("x".data,
        ({ symbol := "WETH-USDC".data, daily := some hypxYield,
           weekly := some hypxYield, monthly := none } :
          InternalFeeReturnsOutput Int)).2.daily.isSome =
      (Except.ok dres : Except Unit (FeeReturnsAllResult Int)).isOk ∧
     ("x".data,
        ({ symbol := "WETH-USDC".data, daily := some hypxYield,
           weekly := some hypxYield, monthly := none } :
          InternalFeeReturnsOutput Int)).2.weekly.isSome =
      (Except.ok wres : Except Unit (FeeReturnsAllResult Int)).isOk ∧
     ("x".data,
        ({ symbol := "WETH-USDC".data, daily := some hypxYield,
           weekly := some hypxYield, monthly := none } :
          InternalFeeReturnsOutput Int)).2.monthly.isSome =
      (Except.error () : Except Unit (FeeReturnsAllResult Int)).isOk) :=
  ⟨(fee_returns_merge_amended (Except.ok dres) (Except.ok wres)
      (Except.error ())).2.1 dres rfl,
   (fee_returns_merge_amended (Except.error () : Except Unit (FeeReturnsAllResult Int))
      (Except.error ()) (Except.error ())).1 rfl rfl rfl,
   ((fee_returns_merge_amended (Except.ok dres) (Except.ok wres)
      (Except.error ())).2.2.2.2
      [("x".data,
        { symbol := "WETH-USDC".data, daily := some hypxYield,
          weekly := some hypxYield, monthly := none })] (by decide)).2
      ("x".data,
        { symbol := "WETH-USDC".data, daily := some hypxYield,
          weekly := some hypxYield, monthly := none }) (by decide)⟩

/-- C7 counterexample: weekly_chain_usd_fees performs no deployment
availability check at all: with an empty DEPLOYMENTS table, so that the
(uniswap, ethereum) pair is unsupported, the weekly endpoint still
succeeds instead of failing with a client error naming the pair. -/
theorem weekly_no_deployment_guard_counterexample :
    (("uniswap".data, "ethereum".data) ∉
      ([] : List (List Char × List Char))) ∧
    weekly_chain_usd_fees (.int 604800) 0 1209600 wkfees = .ok [1] := by decide

/-- C7 amended: fee_returns always validates the (protocol, chain) pair
against DEPLOYMENTS and fails with a 400 error naming the pair when it is
absent; gross_fees and all_chain_usd_fees perform that check only when a
protocol parameter was supplied; and weekly_chain_usd_fees performs no
deployment check, never returning a client error for an integer
week_start_timestamp whatever the table contains. -/
theorem deployment_guard_amended (dep : List (List Char × List Char))
    (p c : List Char) (n midnight now : Int) {ε α : Type}
    (fees : Int → Int → Int → Except ε α) :
    ((p, c) ∉ dep → fee_returns_guard dep p c =
      some (not_available_detail p c)) ∧
    ((p, c) ∈ dep → fee_returns_guard dep p c = none) ∧
    optional_protocol_guard dep none c = none ∧
    ((p, c) ∉ dep → optional_protocol_guard dep (some p) c =
      some (not_available_detail p c)) ∧
    ∀ code detail, weekly_chain_usd_fees (.int n) midnight now fees ≠
      .httpError code detail := by
  refine ⟨?_, ?_, rfl, ?_, ?_⟩
  · intro h
    rw [fee_returns_guard, if_neg h]
  · intro h
    rw [fee_returns_guard, if_pos h]
  · intro h
    show fee_returns_guard dep p c = some (not_available_detail p c)
    rw [fee_returns_guard, if_neg h]
  · intro code detail h
    have hcore : weekly_chain_usd_fees (.int n) midnight now fees =
        weekly_core (start_timestamp_of n now) now fees := rfl
    rw [hcore, weekly_core] at h
    cases hg : gatherStrict ((week_timestamps (start_timestamp_of n now) now).map
        (fun t => fees (t.1 + 1) t.2.1 t.2.2)) with
    | ok r => rw [hg] at h; cases h
    | error e => rw [hg] at h; cases h

/-- Witness for C7 amended: a concrete unsupported pair yields the naming
400 detail from the guards that do check, the protocol-less guard passes,
and a concrete weekly call is not a client error. -/
theorem deployment_guard_amended_witness :
    fee_returns_guard [("uniswap".data, "polygon".data)] "uniswap".data
        "ethereum".data =
      some (not_available_detail "uniswap".data "ethereum".data) ∧
    fee_returns_guard [("uniswap".data, "polygon".data)] "uniswap".data
        "polygon".data = none ∧
    optional_protocol_guard [("uniswap".data, "polygon".data)] none
        "ethereum".data = none ∧
    weekly_chain_usd_fees (.int 5) 0 10 wkfees ≠
      .httpError 400 invalid_week_detail :=
  ⟨(deployment_guard_amended [("uniswap".data, "polygon".data)] "uniswap".data
      "ethereum".data 5 0 10 wkfees).1 (by decide),
   (deployment_guard_amended [("uniswap".data, "polygon".data)] "uniswap".data
      "polygon".data 5 0 10 wkfees).2.1 (by decide),
   (deployment_guard_amended [("uniswap".data, "polygon".data)] "uniswap".data
      "ethereum".data 5 0 10 wkfees).2.2.1,
   (deployment_guard_amended [("uniswap".data, "polygon".data)] "uniswap".data
      "ethereum".data 5 0 10 wkfees).2.2.2.2 400 invalid_week_detail⟩

end GammaSpec
